import Mathlib

set_option maxRecDepth 8192

/-!
Verification of the smartmark classification pipeline and migration planner.

Shallow embedding notes:
* JavaScript values produced by `JSON.parse` are modelled by `JVal`
  (numbers as rationals; `NaN`, `Infinity` and exponent notation are outside
  the modelled JSON subset, which suffices for the strings at issue).
* Strings are Lean `String`s; JavaScript string indices are code units, which
  coincide with characters on the ASCII data handled here.
* Asynchronous, fallible collaborators (the bookmark store, the HTTP fetch,
  `chrome.storage`) are passed in explicitly as values of `Except`/`Option`
  type; a thrown-and-uncaught exception is `none`/`.error`.
-/

namespace Smartmark

/-- Model of a JavaScript value as produced by `JSON.parse`. -/
inductive JVal where
  | jnull : JVal
  | jbool : Bool → JVal
  | jnum : ℚ → JVal
  | jstr : String → JVal
  | jarr : List JVal → JVal
  | jobj : List (String × JVal) → JVal
deriving Repr

/-- Equality with `null` (used where the source checks an element before
    property access would raise a `TypeError`). -/
def isJNull : JVal → Bool
  | JVal.jnull => true
  | _ => false

/-- JavaScript truthiness of a value (`NaN` is outside the model). -/
def truthy : JVal → Bool
  | JVal.jnull => false
  | JVal.jbool b => b
  | JVal.jnum q => q ≠ 0
  | JVal.jstr s => s ≠ ""
  | JVal.jarr _ => true
  | JVal.jobj _ => true

/-- Last-occurrence field lookup: `JSON.parse` keeps the last duplicate key. -/
def lookupLast (k : String) : List (String × JVal) → Option JVal
  | [] => none
  | (k', v) :: rest =>
    match lookupLast k rest with
    | some r => some r
    | none => if k' = k then some v else none

/-- Property access `v[k]`: `undefined` is `none`.  Only objects carry the
    fields of interest; `null` receivers are handled by the callers that
    model the `TypeError` they raise. -/
def jsProp (v : JVal) (k : String) : Option JVal :=
  match v with
  | JVal.jobj fs => lookupLast k fs
  | _ => none

/-- Truthiness of a possibly-`undefined` property. -/
def truthyOpt : Option JVal → Bool
  | none => false
  | some v => truthy v

/-! ### Character/string helpers mirroring the JavaScript string primitives -/

/-- Whitespace for `String.prototype.trim` (ASCII fragment). -/
def jsWs (c : Char) : Bool :=
  c = ' ' || c = '\t' || c = '\n' || c = '\r'

/-- `s.trim()` on the character list. -/
def jsTrimList (cs : List Char) : List Char :=
  ((cs.dropWhile jsWs).reverse.dropWhile jsWs).reverse

/-- `s.trim()`. -/
def jsTrim (s : String) : String :=
  String.mk (jsTrimList s.toList)

/-- Index of the first occurrence of `c` (`indexOf`), if any. -/
def firstIdxOf (c : Char) (s : String) : Option Nat :=
  let rec go : List Char → Nat → Option Nat
    | [], _ => none
    | x :: xs, i => if x = c then some i else go xs (i + 1)
  go s.toList 0

/-- Index of the last occurrence of `c` (`lastIndexOf`), if any. -/
def lastIdxOf (c : Char) (s : String) : Option Nat :=
  let rec go : List Char → Nat → Option Nat → Option Nat
    | [], _, acc => acc
    | x :: xs, i, acc => go xs (i + 1) (if x = c then some i else acc)
  go s.toList 0 none

/-- `s.substring(i, j)` (clamped, `i ≤ j`), on characters. -/
def sliceStr (s : String) (i j : Nat) : String :=
  String.mk ((s.toList.drop i).take (j - i))

/-- Does the string start with the character `c`?  Models `startsWith` for a
    one-character prefix. -/
def startsWithChar (c : Char) (s : String) : Bool :=
  match s.toList with
  | x :: _ => x = c
  | [] => false

/-- The substring from the first `[` to the last `]`, when the last `]` comes
    after the first `[`.  This is both the match of the regular expression
    `/\[[\s\S]*\]/` used by `parseResponse` and the
    `indexOf('[')`/`lastIndexOf(']')` extraction of
    `AIProvider.extractJsonArray`. -/
def bracketSlice (s : String) : Option String :=
  match firstIdxOf '[' s, lastIdxOf ']' s with
  | some i, some j => if i < j then some (sliceStr s i (j + 1)) else none
  | _, _ => none

/-! ### A JSON parser for the subset the pipeline handles

Models `JSON.parse` on JSON text without exponents and without Unicode
escapes (the escapes `\" \\ \/ \n \t \r` are supported).  Fuel-driven; the
fuel passed by `jsonParse` always suffices because every recursive call
consumes at least one character. -/

/-- Skip JSON whitespace. -/
def skipWs : List Char → List Char
  | c :: cs => if jsWs c then skipWs cs else c :: cs
  | [] => []

/-- Parse the body of a JSON string after the opening quote. -/
def parseStringBody : List Char → Option (List Char × List Char)
  | [] => none
  | '"' :: cs => some ([], cs)
  | '\\' :: e :: cs =>
    match (match e with
           | '"' => some '"'
           | '\\' => some '\\'
           | '/' => some '/'
           | 'n' => some '\n'
           | 't' => some '\t'
           | 'r' => some '\r'
           | _ => none) with
    | some d => (parseStringBody cs).map (fun (body, rest) => (d :: body, rest))
    | none => none
  | c :: cs => (parseStringBody cs).map (fun (body, rest) => (c :: body, rest))

/-- Decimal digits prefix and the remainder. -/
def spanDigits (cs : List Char) : List Char × List Char :=
  (cs.takeWhile Char.isDigit, cs.dropWhile Char.isDigit)

/-- Numeric value of a digit list. -/
def digitsToNat (ds : List Char) : Nat :=
  ds.foldl (fun acc d => acc * 10 + (d.toNat - '0'.toNat)) 0

/-- Parse a JSON number (integer part, optional fraction, optional minus). -/
def parseNumber (cs : List Char) : Option (ℚ × List Char) :=
  let (neg, cs₁) := match cs with
    | '-' :: rest => (true, rest)
    | _ => (false, cs)
  let (intDs, cs₂) := spanDigits cs₁
  if intDs = [] then none
  else
    let (q, rest) := match cs₂ with
      | '.' :: cs₃ =>
        let (fracDs, cs₄) := spanDigits cs₃
        if fracDs = [] then ((digitsToNat intDs : ℚ), '.' :: cs₃)
        else ((digitsToNat intDs : ℚ) + (digitsToNat fracDs : ℚ) / ((10 : ℚ) ^ fracDs.length), cs₄)
      | _ => ((digitsToNat intDs : ℚ), cs₂)
    some (if neg then -q else q, rest)

mutual

/-- Parse one JSON value. -/
def parseVal : Nat → List Char → Option (JVal × List Char)
  | 0, _ => none
  | fuel + 1, cs =>
    match skipWs cs with
    | 'n' :: 'u' :: 'l' :: 'l' :: rest => some (JVal.jnull, rest)
    | 't' :: 'r' :: 'u' :: 'e' :: rest => some (JVal.jbool true, rest)
    | 'f' :: 'a' :: 'l' :: 's' :: 'e' :: rest => some (JVal.jbool false, rest)
    | '"' :: rest =>
      (parseStringBody rest).map (fun (body, rest') => (JVal.jstr (String.mk body), rest'))
    | '[' :: rest =>
      (match skipWs rest with
       | ']' :: rest' => some (JVal.jarr [], rest')
       | cs' => (parseElems fuel cs').map (fun (xs, rest') => (JVal.jarr xs, rest')))
    | '{' :: rest =>
      (match skipWs rest with
       | '}' :: rest' => some (JVal.jobj [], rest')
       | cs' => (parseMembers fuel cs').map (fun (fs, rest') => (JVal.jobj fs, rest')))
    | cs' => (parseNumber cs').map (fun (q, rest) => (JVal.jnum q, rest))

/-- Parse the elements of a non-empty JSON array, including the closing `]`. -/
def parseElems : Nat → List Char → Option (List JVal × List Char)
  | 0, _ => none
  | fuel + 1, cs =>
    match parseVal fuel cs with
    | none => none
    | some (v, rest) =>
      match skipWs rest with
      | ',' :: rest' => (parseElems fuel rest').map (fun (xs, r) => (v :: xs, r))
      | ']' :: rest' => some ([v], rest')
      | _ => none

/-- Parse the members of a non-empty JSON object, including the closing `}`. -/
def parseMembers : Nat → List Char → Option (List (String × JVal) × List Char)
  | 0, _ => none
  | fuel + 1, cs =>
    match skipWs cs with
    | '"' :: rest =>
      match parseStringBody rest with
      | none => none
      | some (keyBody, rest₁) =>
        match skipWs rest₁ with
        | ':' :: rest₂ =>
          match parseVal fuel rest₂ with
          | none => none
          | some (v, rest₃) =>
            match skipWs rest₃ with
            | ',' :: rest₄ =>
              (parseMembers fuel rest₄).map (fun (fs, r) => ((String.mk keyBody, v) :: fs, r))
            | '}' :: rest₄ => some ([(String.mk keyBody, v)], rest₄)
            | _ => none
        | _ => none
    | _ => none

end

/-- `JSON.parse`: the whole text must be consumed (up to trailing whitespace). -/
def jsonParse (s : String) : Option JVal :=
  match parseVal (2 * s.length + 8) s.toList with
  | some (v, rest) => if skipWs rest = [] then some v else none
  | none => none

/-! ### JavaScript number coercion

`Math.max(0, s.confidence)` in the legacy `parseResponse` coerces its
argument with `Number()`: numbers pass through, booleans become 0/1,
numeric strings (decimal with optional sign/fraction/exponent, hex, octal,
binary, `Infinity`) their value, other strings `NaN`; arrays go through
`Array.prototype.toString` (elements joined with `,`) and back through the
string rules, plain objects become `"[object Object]"` and hence `NaN`.
`JSNum` is the coercion's codomain: a rational, `NaN` or `±Infinity`
(doubles idealised as exact rationals, as everywhere in this file). -/

inductive JSNum where
  | num : ℚ → JSNum
  | nan : JSNum
  | inf : JSNum
  | ninf : JSNum
deriving DecidableEq, Repr

/-- `Math.max(0, x)` (`NaN` propagates). -/
def jsMax0 : JSNum → JSNum
  | JSNum.num q => JSNum.num (max 0 q)
  | JSNum.nan => JSNum.nan
  | JSNum.inf => JSNum.inf
  | JSNum.ninf => JSNum.num 0

/-- `Math.min(1, x)` (`NaN` propagates). -/
def jsMin1 : JSNum → JSNum
  | JSNum.num q => JSNum.num (min 1 q)
  | JSNum.nan => JSNum.nan
  | JSNum.inf => JSNum.num 1
  | JSNum.ninf => JSNum.ninf

/-- Value of one digit in the given radix (hex letters allowed). -/
def digitVal (radix : Nat) (c : Char) : Option Nat :=
  let v :=
    if '0' ≤ c ∧ c ≤ '9' then some (c.toNat - '0'.toNat)
    else if 'a' ≤ c ∧ c ≤ 'f' then some (c.toNat - 'a'.toNat + 10)
    else if 'A' ≤ c ∧ c ≤ 'F' then some (c.toNat - 'A'.toNat + 10)
    else none
  match v with
  | some d => if d < radix then some d else none
  | none => none

/-- An unsigned radix literal (after `0x`/`0o`/`0b`); empty or any invalid
    digit gives `NaN`. -/
def radixToNum (radix : Nat) (cs : List Char) : JSNum :=
  if cs = [] then JSNum.nan
  else
    match cs.foldl
        (fun acc c => acc.bind (fun a => (digitVal radix c).map (fun d => a * radix + d)))
        (some 0) with
    | some n => JSNum.num n
    | none => JSNum.nan

/-- The body of a signed decimal literal: `Infinity`, or digits with an
    optional fraction and optional exponent, consuming the whole input. -/
def decUnsigned (cs : List Char) (neg : Bool) : JSNum :=
  if cs = ['I', 'n', 'f', 'i', 'n', 'i', 't', 'y'] then
    (if neg then JSNum.ninf else JSNum.inf)
  else
    let (intDs, cs₁) := spanDigits cs
    let (fracDs, cs₂) :=
      match cs₁ with
      | '.' :: r => spanDigits r
      | _ => ([], cs₁)
    if intDs = [] ∧ fracDs = [] then JSNum.nan
    else
      let mant : ℚ := (digitsToNat intDs : ℚ)
        + (digitsToNat fracDs : ℚ) / (10 : ℚ) ^ fracDs.length
      match cs₂ with
      | [] => JSNum.num (if neg then -mant else mant)
      | c :: r =>
        if c = 'e' || c = 'E' then
          let (eneg, r₁) :=
            match r with
            | '+' :: rr => (false, rr)
            | '-' :: rr => (true, rr)
            | _ => (false, r)
          let (eds, r₂) := spanDigits r₁
          if eds = [] ∨ r₂ ≠ [] then JSNum.nan
          else
            let e : ℤ := if eneg then -(digitsToNat eds : ℤ) else (digitsToNat eds : ℤ)
            let q := mant * (10 : ℚ) ^ e
            JSNum.num (if neg then -q else q)
        else JSNum.nan

/-- A decimal literal with optional sign. -/
def decSigned : List Char → JSNum
  | '+' :: rest => decUnsigned rest false
  | '-' :: rest => decUnsigned rest true
  | cs => decUnsigned cs false

/-- `Number(string)`: trim; empty is 0; `0x`/`0o`/`0b` radix literals
    (unsigned); otherwise a signed decimal literal; anything else `NaN`. -/
def stringToNumber (cs : List Char) : JSNum :=
  match jsTrimList cs with
  | [] => JSNum.num 0
  | '0' :: c :: rest =>
    if c = 'x' || c = 'X' then radixToNum 16 rest
    else if c = 'o' || c = 'O' then radixToNum 8 rest
    else if c = 'b' || c = 'B' then radixToNum 2 rest
    else decSigned ('0' :: c :: rest)
  | t => decSigned t

/-- Smallest `k` with `d ∣ 10^k`, when one exists below the search bound
    (every denominator produced by `jsonParse` is a divisor of a power of
    ten, so the bound is never reached on reachable values). -/
def pow10Exp (d : Nat) : Option Nat :=
  (List.range 601).find? (fun k => d ∣ 10 ^ k)

/-- `String(number)` for rationals whose denominator divides a power of ten
    (all values `jsonParse` can produce); the minimal scale reproduces the
    trailing-zero-free decimal JavaScript prints.  (JavaScript switches to
    exponent notation for extreme magnitudes; re-parsing with
    `stringToNumber` yields the same value either way, which is all
    `toNumber` consumes this string for.) -/
def ratToChars (q : ℚ) : Option (List Char) :=
  match pow10Exp q.den with
  | none => none
  | some k =>
    let n := q.num.natAbs * (10 ^ k / q.den)
    let ds := Nat.toDigits 10 n
    let ds := if ds.length ≤ k then List.replicate (k + 1 - ds.length) '0' ++ ds else ds
    let (intPart, fracPart) := ds.splitAt (ds.length - k)
    let body := if k = 0 then intPart else intPart ++ '.' :: fracPart
    some (if q.num < 0 then '-' :: body else body)

def objectStr : String := "[object Object]"

mutual

/-- `String(v)` as used by `Array.prototype.join`: `null` contributes the
    empty string, arrays join their elements with `,`, plain objects print
    `[object Object]`.  `none` only on rationals outside `ratToChars`'s
    domain, which `jsonParse` cannot produce. -/
def jvalToChars : JVal → Option (List Char)
  | JVal.jnull => some []
  | JVal.jbool true => some ['t', 'r', 'u', 'e']
  | JVal.jbool false => some ['f', 'a', 'l', 's', 'e']
  | JVal.jnum q => ratToChars q
  | JVal.jstr s => some s.toList
  | JVal.jarr xs => jvalListToChars xs
  | JVal.jobj _ => some objectStr.toList

def jvalListToChars : List JVal → Option (List Char)
  | [] => some []
  | [x] => jvalToChars x
  | x :: y :: rest =>
    match jvalToChars x, jvalListToChars (y :: rest) with
    | some a, some b => some (a ++ ',' :: b)
    | _, _ => none

end

/-- `Number(v)` on the values `JSON.parse` can return. -/
def toNumber : JVal → JSNum
  | JVal.jnull => JSNum.num 0
  | JVal.jbool b => JSNum.num (if b then 1 else 0)
  | JVal.jnum q => JSNum.num q
  | JVal.jstr s => stringToNumber s.toList
  | JVal.jarr xs =>
    (match jvalListToChars xs with
     | some cs => stringToNumber cs
     | none => JSNum.nan)
  | JVal.jobj _ => stringToNumber objectStr.toList

/-! ### Shared string constants -/

def slashStr : String := "/"

def newlineStr : String := "\n"

def folderPathKey : String := "folderPath"

def confidenceKey : String := "confidence"

def uncategorizedStr : String := "Uncategorized"

def generalStr : String := "General"

/-! ### SecuritySanitizer (src/unnamed/part_005, security.js)

`sanitizeFolderPath` strips `[<>:"|?*\\]`, removes `..` pairs, strips leading
slashes/backslashes, splits on `/`, trims and caps each segment at 50
characters, drops empty and dot-leading segments, keeps at most 3 segments
and joins; the empty join falls back to `'Uncategorized'`.  It never pads. -/

namespace SecuritySanitizer

/-- Characters removed by `.replace(/[<>:"|?*\\]/g, '')`. -/
def forbiddenChar (c : Char) : Bool :=
  c = '<' || c = '>' || c = ':' || c = '"' || c = '|' || c = '?' || c = '*' || c = '\\'

/-- `.replace(/\.\./g, '')`: remove non-overlapping `..` pairs left to right. -/
def removeDotDot : List Char → List Char
  | '.' :: '.' :: rest => removeDotDot rest
  | c :: rest => c :: removeDotDot rest
  | [] => []

/-- `String.prototype.split('/')` (always returns at least one segment). -/
def splitOnSlash : List Char → List (List Char)
  | [] => [[]]
  | '/' :: rest => [] :: splitOnSlash rest
  | c :: rest =>
    match splitOnSlash rest with
    | seg :: segs => (c :: seg) :: segs
    | [] => [[c]]

/-- `part.trim().substring(0, 50)`. -/
def segTransform (seg : List Char) : List Char :=
  (jsTrimList seg).take 50

/-- `part.length > 0 && !part.startsWith('.')`. -/
def keepSeg : List Char → Bool
  | [] => false
  | c :: _ => c ≠ '.'

/-- `Array.prototype.join('/')`. -/
def joinSlash : List String → String
  | [] => ""
  | [s] => s
  | s :: rest => s ++ slashStr ++ joinSlash rest

/-- The segments surviving sanitization (before the join). -/
def surviveSegments (path : String) : List String :=
  let cs := (path.toList.filter (fun c => !forbiddenChar c))
  let cs := removeDotDot cs
  let cs := cs.dropWhile (fun c => c = '/' || c = '\\')
  ((((splitOnSlash cs).map segTransform).filter keepSeg).take 3).map String.mk

/-- `SecuritySanitizer.sanitizeFolderPath` on string input (non-string input
    returns the sentinel in the source and is outside this model); the
    `|| 'Uncategorized'` fallback fires exactly on the empty join. -/
def sanitizeFolderPath (path : String) : String :=
  if joinSlash (surviveSegments path) = "" then uncategorizedStr
  else joinSlash (surviveSegments path)

/-- Per-item check of `validateAIResponse`: a truthy `typeof === 'object'`
    value whose `folderPath` is a string of length in `(0, 200)`. -/
def validAIItem (item : JVal) : Bool :=
  truthy item &&
  (match item with
   | JVal.jobj _ => true
   | JVal.jarr _ => true
   | JVal.jnull => true
   | _ => false) &&
  (match jsProp item folderPathKey with
   | some (JVal.jstr s) => s.length > 0 && s.length < 200
   | _ => false)

/-- `SecuritySanitizer.validateAIResponse`: array whose items all pass. -/
def validateAIResponse : JVal → Bool
  | JVal.jarr items => items.all validAIItem
  | _ => false

end SecuritySanitizer

/-! ### `parseResponse` in src/ai.js

Regex-extracts the first JSON array, parses it, rejects non-arrays and
arrays failing `validateAIResponse`, then filters per-item, sanitizes each
`folderPath` and keeps the first 5.  Any failure in the `try` block is
caught and replaced by the single sentinel suggestion. -/

namespace AiJs

structure SuggestionAI where
  folderPath : String
deriving DecidableEq, Repr

/-- The catch-branch result `[{ folderPath: 'Uncategorized' }]`. -/
def sentinelAI : SuggestionAI := { folderPath := uncategorizedStr }

/-- `.map(s => ({folderPath: SecuritySanitizer.sanitizeFolderPath(s.folderPath)}))`
    restricted to the items the preceding `.filter` keeps. -/
def toSuggestionAI (item : JVal) : Option SuggestionAI :=
  match jsProp item folderPathKey with
  | some (JVal.jstr s) => some { folderPath := SecuritySanitizer.sanitizeFolderPath s }
  | _ => none

/-- The `try` block of `parseResponse`; `none` models a thrown error. -/
def parseResponseCoreAI (response : String) : Option (List SuggestionAI) :=
  match bracketSlice response with
  | none => none
  | some m =>
    match jsonParse m with
    | none => none
    | some (JVal.jarr items) =>
      if SecuritySanitizer.validateAIResponse (JVal.jarr items) then
        some (((items.filter SecuritySanitizer.validAIItem).filterMap toSuggestionAI).take 5)
      else none
    | some _ => none

/-- `parseResponse` of src/ai.js. -/
def parseResponseAI (response : String) : List SuggestionAI :=
  (parseResponseCoreAI response).getD [sentinelAI]

end AiJs

/-! ### Legacy pipeline (src/unnamed/part_001)

Its `sanitizeFolderPath` pads short paths with `'General'` up to 3 levels;
its `parseResponse` keeps items with truthy `folderPath` and truthy
`confidence`, clamps confidence into `[0, 1]` and slices to 5, with the
whole `try` block replaced by a sentinel on any thrown error. -/

namespace Part001

def isAsciiLower (c : Char) : Bool := 'a' ≤ c && c ≤ 'z'

def isAsciiUpper (c : Char) : Bool := 'A' ≤ c && c ≤ 'Z'

/-- `.replace(/([a-z])([A-Z])/g, '$1 $2')` (left-to-right, non-overlapping). -/
def camelSplit1 : List Char → List Char
  | a :: b :: rest =>
    if isAsciiLower a && isAsciiUpper b then a :: ' ' :: b :: camelSplit1 rest
    else a :: camelSplit1 (b :: rest)
  | l => l

/-- `.replace(/([A-Z])([A-Z][a-z])/g, '$1 $2')`. -/
def camelSplit2 : List Char → List Char
  | a :: b :: c :: rest =>
    if isAsciiUpper a && isAsciiUpper b && isAsciiLower c then a :: ' ' :: b :: c :: camelSplit2 rest
    else a :: camelSplit2 (b :: c :: rest)
  | l => l

/-- Per-segment transform of the legacy sanitizer. -/
def seg001 (seg : List Char) : List Char :=
  camelSplit2 (camelSplit1 (jsTrimList seg))

/-- `while (parts.length < 3) parts.push('General')`. -/
def padGeneral (parts : List String) : List String :=
  parts ++ List.replicate (3 - parts.length) generalStr

/-- The legacy `sanitizeFolderPath` (src/unnamed/part_001): pads to 3 levels. -/
def sanitizeFolderPath (path : String) : String :=
  let cs := path.toList.filter (fun c => !SecuritySanitizer.forbiddenChar c)
  let cs := SecuritySanitizer.removeDotDot cs
  let parts :=
    ((((SecuritySanitizer.splitOnSlash cs).map seg001).filter (fun s => s.length > 0)).take 3).map String.mk
  SecuritySanitizer.joinSlash (padGeneral parts)

structure Suggestion1 where
  folderPath : String
  confidence : JSNum
deriving DecidableEq, Repr

/-- The catch-branch result `[{folderPath: 'Uncategorized', confidence: 0.5}]`. -/
def sentinel001 : Suggestion1 :=
  { folderPath := uncategorizedStr, confidence := JSNum.num (1 / 2) }

/-- `.filter(s => s.folderPath && s.confidence)`. -/
def keep001 (s : JVal) : Bool :=
  truthyOpt (jsProp s folderPathKey) && truthyOpt (jsProp s confidenceKey)

/-- Does an item take the success path of the `.map` callback: a string
    `folderPath` (anything else raises a `TypeError` in `path.replace`) and
    a present `confidence` (always the case for items the filter keeps)? -/
def goodShape001 (v : JVal) : Bool :=
  match jsProp v folderPathKey, jsProp v confidenceKey with
  | some (JVal.jstr _), some _ => true
  | _, _ => false

/-- The `.map` step over the kept items: sanitize the string `folderPath`
    and clamp the `Number()`-coerced confidence.  A truthy non-string
    `folderPath` raises a `TypeError` in `path.replace` (modelled as
    `none`); the absent-property arms are unreachable for lists the filter
    produces, since kept items have both properties truthy. -/
def mapItems001 : List JVal → Option (List Suggestion1)
  | [] => some []
  | s :: rest =>
    match jsProp s folderPathKey, jsProp s confidenceKey with
    | some (JVal.jstr fp), some cv =>
      (mapItems001 rest).map
        (fun l => { folderPath := sanitizeFolderPath fp
                    confidence := jsMin1 (jsMax0 (toNumber cv)) : Suggestion1 } :: l)
    | _, _ => none

/-- Filter-and-map validation of the legacy `parseResponse`.  Property access
    on a `null` element raises a `TypeError` (modelled as `none`). -/
def validateItems001 (items : List JVal) : Option (List Suggestion1) :=
  if items.any isJNull then none
  else mapItems001 (items.filter keep001)

/-- The `try` block of the legacy `parseResponse`. -/
def parseResponseCore001 (response : String) : Option (List Suggestion1) :=
  match bracketSlice response with
  | none => none
  | some m =>
    match jsonParse m with
    | none => none
    | some (JVal.jarr items) => (validateItems001 items).map (List.take 5)
    | some _ => none

/-- The legacy `parseResponse`. -/
def parseResponse001 (response : String) : List Suggestion1 :=
  (parseResponseCore001 response).getD [sentinel001]

end Part001

/-! ### TokenManager (src/utils/providers/token-manager.js) -/

namespace TokenManager

/-- `Math.ceil(text.length / 3.5)`, i.e. `⌈2·len/7⌉`. -/
def estimateTokenCount (text : String) : Nat :=
  (2 * text.length + 6) / 7

/-- Head of the context template (everything before the folder list). -/
def contextHeader : String :=
  "\n\nEXISTING BOOKMARK FOLDER STRUCTURE:\nThe user has organized their bookmarks into the following folders. Please prioritize suggesting folder paths that align with or logically extend this existing organization:\n\n"

/-- Tail of the context template (everything after the folder list). -/
def contextFooter : String :=
  "\n\nWhen suggesting new folder paths, consider:\n1. Using existing folders if the bookmark fits well\n2. Creating logical sub-folders within existing categories\n3. Following the user\x27s established naming conventions and organizational patterns\n4. Maintaining consistency with the existing folder hierarchy\n\n"

/-- `buildContextSection`. -/
def buildContextSection (folders : List String) : String :=
  if folders.isEmpty then ""
  else
    contextHeader ++ String.intercalate newlineStr (folders.map (fun path => "- " ++ path)) ++ contextFooter

/-- `f.includes('/')`. -/
def hasSlash (f : String) : Bool :=
  f.toList.contains '/'

/-- `f.split('/').length`. -/
def folderDepth (f : String) : Nat :=
  (SecuritySanitizer.splitOnSlash f.toList).length

/-- Lexicographic comparison of character lists (models `localeCompare`,
    locale effects aside). -/
def charListLe : List Char → List Char → Bool
  | [], _ => true
  | _ :: _, [] => false
  | a :: as, b :: bs => if a = b then charListLe as bs else decide (a < b)

/-- `a.localeCompare(b) ≤ 0` in the model. -/
def localeLe (a b : String) : Bool :=
  charListLe a.toList b.toList

/-- The subfolder comparator: ascending depth, then lexicographic. -/
def subOrd (a b : String) : Prop :=
  folderDepth a < folderDepth b ∨ (folderDepth a = folderDepth b ∧ localeLe a b = true)

instance : DecidableRel subOrd := fun a b => by
  unfold subOrd; infer_instance

instance : IsTotal String subOrd where
  total a b := by
    have key : ∀ as bs : List Char, charListLe as bs = true ∨ charListLe bs as = true := by
      intro as
      induction as with
      | nil => exact fun bs => Or.inl rfl
      | cons a as ih =>
        intro bs
        cases bs with
        | nil => exact Or.inr rfl
        | cons b bs =>
          by_cases hab : a = b
          · subst hab
            rcases ih bs with h | h
            · exact Or.inl (by simpa [charListLe] using h)
            · exact Or.inr (by simpa [charListLe] using h)
          · rcases lt_trichotomy a b with h | h | h
            · exact Or.inl (by simp [charListLe, hab, h])
            · exact absurd h hab
            · exact Or.inr (by simp [charListLe, Ne.symm hab, h])
    rcases lt_trichotomy (folderDepth a) (folderDepth b) with h | h | h
    · exact Or.inl (Or.inl h)
    · rcases key a.toList b.toList with h' | h'
      · exact Or.inl (Or.inr ⟨h, h'⟩)
      · exact Or.inr (Or.inr ⟨h.symm, h'⟩)
    · exact Or.inr (Or.inl h)

instance : IsTrans String subOrd where
  trans a b c hab hbc := by
    have key : ∀ as bs cs : List Char, charListLe as bs = true → charListLe bs cs = true →
        charListLe as cs = true := by
      intro as
      induction as with
      | nil => exact fun bs cs _ _ => rfl
      | cons a as ih =>
        intro bs cs h₁ h₂
        cases bs with
        | nil => simp [charListLe] at h₁
        | cons b bs =>
          cases cs with
          | nil => simp [charListLe] at h₂
          | cons c cs =>
            by_cases hab : a = b
            · subst hab
              by_cases hbc : a = c
              · subst hbc
                simp only [charListLe, if_pos rfl] at h₁ h₂ ⊢
                exact ih bs cs h₁ h₂
              · simp only [charListLe, if_pos rfl] at h₁
                simpa [charListLe, hbc] using h₂
            · by_cases hbc : b = c
              · subst hbc
                simpa [charListLe, hab] using h₁
              · simp only [charListLe, if_neg hab, decide_eq_true_eq] at h₁
                simp only [charListLe, if_neg hbc, decide_eq_true_eq] at h₂
                have hac : a < c := h₁.trans h₂
                simp [charListLe, ne_of_lt hac, hac]
    rcases hab with h₁ | ⟨h₁, h₁'⟩
    · rcases hbc with h₂ | ⟨h₂, _⟩
      · exact Or.inl (h₁.trans h₂)
      · exact Or.inl (h₂ ▸ h₁)
    · rcases hbc with h₂ | ⟨h₂, h₂'⟩
      · exact Or.inl (h₁ ▸ h₂)
      · exact Or.inr ⟨h₁.trans h₂, key _ _ _ h₁' h₂'⟩

/-- `TokenManager.prioritizeFolders`. -/
def prioritizeFolders (folders : List String) (maxFolders : Nat) : List String :=
  if folders.isEmpty then []
  else if folders.length ≤ maxFolders then folders
  else
    let rootFolders := folders.filter (fun f => !hasSlash f)
    let subFolders := folders.filter (fun f => hasSlash f)
    if rootFolders.length < maxFolders then
      rootFolders ++ (List.insertionSort subOrd subFolders).take (maxFolders - rootFolders.length)
    else rootFolders

structure OptimizationResult where
  folders : List String
  originalCount : Nat
  includedCount : Nat
  optimizationApplied : Bool
  tokenCount : Nat
deriving DecidableEq, Repr

/-- The descending ceilings tried by `optimizeContext`. -/
def maxFolderLimits : List Nat := [100, 75, 50, 25, 15, 10]

/-- `TokenManager.optimizeContext` (the `processingTime` bookkeeping is
    wall-clock only and is not modelled). -/
def optimizeContext (folders : List String) (basePrompt : String) (maxContextTokens : Nat) :
    OptimizationResult :=
  if folders.isEmpty then
    { folders := [], originalCount := folders.length, includedCount := 0,
      optimizationApplied := false, tokenCount := 0 }
  else
    let fullTokens := estimateTokenCount (basePrompt ++ buildContextSection folders)
    if fullTokens ≤ maxContextTokens then
      { folders := folders, originalCount := folders.length, includedCount := folders.length,
        optimizationApplied := false, tokenCount := fullTokens }
    else
      match maxFolderLimits.find?
          (fun limit =>
            decide (estimateTokenCount
              (basePrompt ++ buildContextSection (prioritizeFolders folders limit)) ≤ maxContextTokens)) with
      | some limit =>
        let optimizedFolders := prioritizeFolders folders limit
        { folders := optimizedFolders, originalCount := folders.length,
          includedCount := optimizedFolders.length, optimizationApplied := true,
          tokenCount := estimateTokenCount (basePrompt ++ buildContextSection optimizedFolders) }
      | none =>
        { folders := [], originalCount := folders.length, includedCount := 0,
          optimizationApplied := true, tokenCount := estimateTokenCount basePrompt }

end TokenManager

/-! ### AIProvider.extractJsonArray (src/utils/providers/base.js) -/

namespace AIProvider

def failNotArrayMsg : String := "Failed to parse JSON array: Response is not an array"

def failParseMsg : String := "Failed to parse JSON array"

/-- `extractJsonArray`: trim; when the text does not start with `[`, replace
    it by the substring from the first `[` to the last `]` when that exists;
    then `JSON.parse` and require an array. -/
def extractJsonArray (rawResponse : String) : Except String (List JVal) :=
  let t := jsTrim rawResponse
  let jsonText := if startsWithChar '[' t then t else (bracketSlice t).getD t
  match jsonParse jsonText with
  | some (JVal.jarr xs) => Except.ok xs
  | some _ => Except.error failNotArrayMsg
  | none => Except.error failParseMsg

end AIProvider

/-! ### Folder-structure cache (src/utils/api.js)

The chrome storage reads/writes and the tree fetch are external; their
outcomes are supplied in `FetchEnv`.  `fetched` records whether
`fetchBookmarkFolderStructure` was invoked. -/

namespace Api

structure CacheState where
  cachedData : Option (List String)
  cachedExpiry : Option Nat
deriving DecidableEq, Repr

structure FetchEnv where
  now : Nat
  ttlMs : Nat
  fetchResult : Except String (List String)
  cacheReadFails : Bool

/-- `getCachedFolderStructure(skipExpiryCheck)`; a failing storage read
    resolves to `null`. -/
def getCachedFolderStructure (skipExpiryCheck : Bool) (st : CacheState) (env : FetchEnv) :
    Option (List String) :=
  if env.cacheReadFails then none
  else
    match st.cachedData with
    | none => none
    | some d =>
      if skipExpiryCheck then some d
      else
        match st.cachedExpiry with
        | none => none
        | some e => if env.now > e then none else some d

structure FetchOutcome where
  output : List String
  state : CacheState
  fetched : Bool
deriving DecidableEq, Repr

/-- `getBookmarkFolderStructure(forceRefresh)`: cache-first read with
    stale-or-empty fallback; total (the source catches everything). -/
def getBookmarkFolderStructure (forceRefresh : Bool) (st : CacheState) (env : FetchEnv) :
    FetchOutcome :=
  match (if forceRefresh then none else getCachedFolderStructure false st env) with
  | some d => { output := d, state := st, fetched := false }
  | none =>
    match env.fetchResult with
    | Except.ok paths =>
      { output := paths
        state := { cachedData := some paths, cachedExpiry := some (env.now + env.ttlMs) }
        fetched := true }
    | Except.error _ =>
      match getCachedFolderStructure true st env with
      | some d =>
        if d.length > 0 then { output := d, state := st, fetched := true }
        else { output := [], state := st, fetched := true }
      | none => { output := [], state := st, fetched := true }

structure BNode where
  id : String
  title : String
  url : Option String
deriving DecidableEq, Repr

/-- `createBookmark(folderId, title, url)`; `children` is the result of
    `chrome.bookmarks.getChildren(folderId)` and doubles as the folder's
    stored content, `newId` the id chrome would assign to a fresh node.
    Returns the updated children, the returned node, and whether
    `chrome.bookmarks.create` was called. -/
def createBookmark (children : List BNode) (title url newId : String) :
    List BNode × BNode × Bool :=
  match children.find? (fun child => child.url == some url) with
  | some existing =>
    if existing.title ≠ title then
      (children.map (fun c => if c.id = existing.id then { existing with title := title } else c),
       { existing with title := title }, false)
    else (children, existing, false)
  | none =>
    (children ++ [{ id := newId, title := title, url := some url }],
     { id := newId, title := title, url := some url }, true)

end Api

/-! ### src/bookmarks.js -/

namespace BookmarksJs

/-- A chrome bookmark-tree node. -/
inductive BTree where
  | node (title : String) (url : Option String) (children : List BTree)

/-- The root containers skipped by `getFolderStructure`. -/
def rootContainerTitles : List String :=
  ["Bookmarks Bar", "Other Bookmarks", "Mobile Bookmarks", "Favorites Bar"]

mutual

/-- The `traverse` closure of `getFolderStructure`. -/
def traverse : BTree → String → List String
  | BTree.node title url children, path =>
    if url.isNone && title ≠ "" then
      let currentPath := if path ≠ "" then path ++ slashStr ++ title else title
      let isRoot := rootContainerTitles.contains title
      let pathForChildren := if isRoot then "" else currentPath
      (if isRoot then [] else [currentPath]) ++ traverseList children pathForChildren
    else traverseList children path

def traverseList : List BTree → String → List String
  | [], _ => []
  | n :: ns, path => traverse n path ++ traverseList ns path

end

structure LibState where
  folderCache : Option (List String)
  cacheTime : Nat
deriving DecidableEq, Repr

structure LibEnv where
  now : Nat
  tree : BTree

def CACHE_DURATION : Nat := 15 * 60 * 1000

/-- `getFolderStructure()` of src/bookmarks.js.  The source begins by
    clearing the module-level cache ("Force cache refresh after root
    container logic fix"), so the subsequent cache check runs on the cleared
    state.  Returns (folders, new state, whether the tree was fetched). -/
def getFolderStructure (_st : LibState) (env : LibEnv) : List String × LibState × Bool :=
  let cleared : LibState := { folderCache := none, cacheTime := 0 }
  if cleared.folderCache.isSome = true ∧ env.now - cleared.cacheTime < CACHE_DURATION then
    (cleared.folderCache.getD [], cleared, false)
  else
    let folders := traverse env.tree ""
    (folders, { folderCache := some folders, cacheTime := env.now }, true)

/-- `createBookmarkInFolder(folderPath, title, url)`; `store` is the whole
    bookmark store consulted by `chrome.bookmarks.search({url})` (the
    `ensureFolderExists` side effect concerns folders, not bookmark nodes,
    and is orthogonal to duplicate prevention).  Returns the updated store,
    the returned node, and whether `chrome.bookmarks.create` was called. -/
def createBookmarkInFolder (store : List Api.BNode) (title url newId : String) :
    List Api.BNode × Api.BNode × Bool :=
  match store.filter (fun b => b.url == some url) with
  | existing :: _ =>
    (store.map (fun b => if b.id = existing.id then { b with title := title } else b),
     existing, false)
  | [] =>
    (store ++ [{ id := newId, title := title, url := some url }],
     ({ id := newId, title := title, url := some url } : Api.BNode), true)

end BookmarksJs

/-! ### Migration executor (src/utils/migration.js) -/

namespace Migration

structure Move where
  bookmarkId : String
  bookmarkTitle : String
  originalFolderPath : String
  newSuggestedFolderPath : String
deriving DecidableEq, Repr

/-- Outcomes of the two store operations used per move. -/
structure MoveEnv where
  findOrCreateFolder : Move → Except String (Option String)
  moveBookmark : Move → String → Except String Unit

structure MigrationResults where
  successful : Nat
  failed : Nat
  errors : List String
deriving DecidableEq, Repr

def folderFailPrefix : String := "Failed to create or find folder: "

/-- `Failed to move "<title>": <message>`. -/
def failMsg (move : Move) (e : String) : String :=
  "Failed to move \"" ++ move.bookmarkTitle ++ "\": " ++ e

/-- `results.failed++; results.errors.push(...)`. -/
def addFail (acc : MigrationResults) (msg : String) : MigrationResults :=
  { acc with failed := acc.failed + 1, errors := acc.errors ++ [msg] }

/-- One iteration of the `for` loop of `executeMigration`. -/
def processMove (env : MoveEnv) (acc : MigrationResults) (move : Move) : MigrationResults :=
  match env.findOrCreateFolder move with
  | Except.error e => addFail acc (failMsg move e)
  | Except.ok none => addFail acc (failMsg move (folderFailPrefix ++ move.newSuggestedFolderPath))
  | Except.ok (some folderId) =>
    match env.moveBookmark move folderId with
    | Except.error e => addFail acc (failMsg move e)
    | Except.ok _ => { acc with successful := acc.successful + 1 }

/-- `executeMigration(approvedMoves)`. -/
def executeMigration (env : MoveEnv) (approvedMoves : List Move) : MigrationResults :=
  approvedMoves.foldl (processMove env) { successful := 0, failed := 0, errors := [] }

end Migration

/-! ### Concrete inputs used by counterexamples and witnesses -/

def aLit : String := "a"

def bLit : String := "b"

def cLit : String := "c"

def xySub : String := "x/y"

def xzSub : String := "x/z"

def emptyStr : String := ""

def techStr : String := "Tech"

def techAIStr : String := "Tech/AI"

def techPaddedStr : String := "Tech/General/General"

/-- A backend response that is a well-formed empty JSON array. -/
def emptyArrayResponse : String := "[]"

/-- A parsed-array response mixing one valid and one invalid item. -/
def mixedResponse : String := "[\x7b\"folderPath\":\"Tech\"\x7d,\x7b\"folderPath\":5\x7d]"

/-- The valid item of `mixedResponse` on its own. -/
def soloValidResponse : String := "[\x7b\"folderPath\":\"Tech\"\x7d]"

/-- A response with no JSON array at all. -/
def noJsonResponse : String := "no array here"

/-- A JSON array followed by prose, with an empty prefix. -/
def arraySuffixResponse : String := "[\"a\"] thanks"

/-- The substring of `arraySuffixResponse` between its first `[` and last `]`. -/
def arraySliceStr : String := "[\"a\"]"

/-- A JSON array surrounded by bracket-free prose on both sides. -/
def proseWrappedResponse : String := "Sure! [\"a\"] Hope that helps"

def abcRoots : List String := [aLit, bLit, cLit]

def fourFolders : List String := [aLit, bLit, xySub, xzSub]

def singleFolder : List String := [techStr]

def zeroNineStr : String := "0.9"

/-- A fully valid item: string folderPath, numeric confidence. -/
def goodConfItem : JVal :=
  JVal.jobj [(folderPathKey, JVal.jstr techAIStr), (confidenceKey, JVal.jnum 1)]

/-- A kept item whose confidence is the numeric string `"0.9"`, coerced by
    `Number()` inside the clamp. -/
def strConfItem : JVal :=
  JVal.jobj [(folderPathKey, JVal.jstr aLit), (confidenceKey, JVal.jstr zeroNineStr)]

/-- An item with a valid folderPath but no confidence field. -/
def noConfItem : JVal := JVal.jobj [(folderPathKey, JVal.jstr aLit)]

/-- An item whose truthy folderPath is a number, not a string: the map
    callback's `path.replace` throws on it. -/
def numFpItem : JVal :=
  JVal.jobj [(folderPathKey, JVal.jnum 7), (confidenceKey, JVal.jnum 1)]

/-- Mixed batch for the legacy validation: two kept items (one with numeric,
    one with numeric-string confidence) and one dropped for its missing
    confidence. -/
def c5Items : List JVal := [goodConfItem, strConfItem, noConfItem]

/-- A batch whose `null` element makes the filter callback throw. -/
def c5NullBatch : List JVal := [JVal.jnull, goodConfItem]

/-- A batch whose kept non-string folderPath makes the map callback throw. -/
def c5BadFpBatch : List JVal := [numFpItem, goodConfItem]

def c4CacheState : Api.CacheState := { cachedData := some [techStr], cachedExpiry := some 1000 }

def c4Env : Api.FetchEnv :=
  { now := 500, ttlMs := 3600000, fetchResult := Except.ok [], cacheReadFails := false }

def netErrMsg : String := "Network request failed"

def c8CacheState : Api.CacheState := { cachedData := some [techStr], cachedExpiry := some 100 }

/-- The cache above is expired at `now = 500` and the fetch fails. -/
def c8Env : Api.FetchEnv :=
  { now := 500, ttlMs := 3600000, fetchResult := Except.error netErrMsg, cacheReadFails := false }

def bookmarksBarStr : String := "Bookmarks Bar"

/-- A tree whose only real folder is `Tech`. -/
def sampleTree : BookmarksJs.BTree :=
  BookmarksJs.BTree.node emptyStr none
    [BookmarksJs.BTree.node bookmarksBarStr none
      [BookmarksJs.BTree.node techStr none []]]

/-- A module cache populated at the current instant (0 ms ago, far below the
    15-minute TTL). -/
def freshLibState : BookmarksJs.LibState := { folderCache := some [techStr], cacheTime := 100 }

def sampleLibEnv : BookmarksJs.LibEnv := { now := 100, tree := sampleTree }

def oldTitleStr : String := "Old title"

def newTitleStr : String := "New title"

def mlUrlStr : String := "https://x.com/ml"

def otherUrlStr : String := "https://y.com/other"

def id1Str : String := "10"

def id2Str : String := "11"

def id9Str : String := "99"

def existingBookmarkNode : Api.BNode := { id := id1Str, title := oldTitleStr, url := some mlUrlStr }

def otherBookmarkNode : Api.BNode := { id := id2Str, title := oldTitleStr, url := some otherUrlStr }

def c10Children : List Api.BNode := [otherBookmarkNode, existingBookmarkNode]

def c10Store : List Api.BNode := [otherBookmarkNode, existingBookmarkNode]

/-! ## Helper lemmas -/

theorem processMove_invariant (env : Migration.MoveEnv) (acc : Migration.MigrationResults)
    (move : Migration.Move) :
    (Migration.processMove env acc move).successful + (Migration.processMove env acc move).failed
        = acc.successful + acc.failed + 1
    ∧ (Migration.processMove env acc move).errors.length + acc.failed
        = acc.errors.length + (Migration.processMove env acc move).failed := by
  cases h : env.findOrCreateFolder move with
  | error e => simp [Migration.processMove, Migration.addFail, h]; omega
  | ok fid =>
    cases fid with
    | none => simp [Migration.processMove, Migration.addFail, h]; omega
    | some folderId =>
      cases h₂ : env.moveBookmark move folderId with
      | error e => simp [Migration.processMove, Migration.addFail, h, h₂]; omega
      | ok u => simp [Migration.processMove, Migration.addFail, h, h₂]; omega

theorem executeMigration_foldl_invariant (env : Migration.MoveEnv)
    (moves : List Migration.Move) :
    ∀ acc : Migration.MigrationResults,
      ((moves.foldl (Migration.processMove env) acc).successful
          + (moves.foldl (Migration.processMove env) acc).failed
          = acc.successful + acc.failed + moves.length)
      ∧ ((moves.foldl (Migration.processMove env) acc).errors.length + acc.failed
          = acc.errors.length + (moves.foldl (Migration.processMove env) acc).failed) := by
  induction moves with
  | nil => intro acc; simp
  | cons m ms ih =>
    intro acc
    have h₁ := processMove_invariant env acc m
    have h₂ := ih (Migration.processMove env acc m)
    simp only [List.foldl_cons, List.length_cons]
    omega

/-! ## Claim theorems -/

/-- Claim C9: `executeMigration` attempts every approved move even when
    earlier moves fail; the result satisfies `successful + failed = number of
    approved moves` and `errors` holds exactly one message per failed move. -/
theorem c9_executeMigration_counts (env : Migration.MoveEnv)
    (approvedMoves : List Migration.Move) :
    (Migration.executeMigration env approvedMoves).successful
        + (Migration.executeMigration env approvedMoves).failed = approvedMoves.length
    ∧ (Migration.executeMigration env approvedMoves).errors.length
        = (Migration.executeMigration env approvedMoves).failed := by
  have h := executeMigration_foldl_invariant env approvedMoves
    { successful := 0, failed := 0, errors := [] }
  unfold Migration.executeMigration
  simp only [List.length_nil] at h
  omega

/-- Claim C10: the save operations never create a duplicate for an existing
    URL — `createBookmark` consults the target folder's children and
    `createBookmarkInFolder` the whole store; when a bookmark with the URL
    exists, the existing node is updated to the new title and returned, the
    store size is unchanged, and no new node is created. -/
theorem c10_no_duplicate_bookmarks (children store : List Api.BNode) (title url newId : String)
    (h1 : ∃ c ∈ children, c.url = some url)
    (h2 : ∃ b ∈ store, b.url = some url) :
    ((Api.createBookmark children title url newId).2.2 = false
      ∧ (Api.createBookmark children title url newId).1.length = children.length
      ∧ (Api.createBookmark children title url newId).2.1.title = title
      ∧ (Api.createBookmark children title url newId).2.1.url = some url
      ∧ (Api.createBookmark children title url newId).2.1
          ∈ (Api.createBookmark children title url newId).1)
    ∧ ((BookmarksJs.createBookmarkInFolder store title url newId).2.2 = false
      ∧ (BookmarksJs.createBookmarkInFolder store title url newId).1.length = store.length
      ∧ (BookmarksJs.createBookmarkInFolder store title url newId).2.1.url = some url
      ∧ ∃ n ∈ (BookmarksJs.createBookmarkInFolder store title url newId).1,
          n.id = (BookmarksJs.createBookmarkInFolder store title url newId).2.1.id
          ∧ n.title = title) := by
  constructor
  · obtain ⟨c, hc, hcu⟩ := h1
    have hfind : (children.find? (fun child => child.url == some url)).isSome := by
      rw [List.find?_isSome]
      exact ⟨c, hc, by simp [hcu]⟩
    obtain ⟨e, he⟩ := Option.isSome_iff_exists.mp hfind
    have heu : e.url = some url := by
      have := List.find?_some he
      simpa using this
    have hem : e ∈ children := List.mem_of_find?_eq_some he
    by_cases ht : e.title = title
    · have hstep : Api.createBookmark children title url newId = (children, e, false) := by
        simp [Api.createBookmark, he, ht]
      rw [hstep]
      exact ⟨rfl, rfl, ht, heu, hem⟩
    · have hstep : Api.createBookmark children title url newId
          = (children.map (fun c => if c.id = e.id then { e with title := title } else c),
             { e with title := title }, false) := by
        simp [Api.createBookmark, he, ht]
      rw [hstep]
      refine ⟨rfl, List.length_map _ _, rfl, ?_, ?_⟩
      · simpa using heu
      · exact List.mem_map.mpr ⟨e, hem, by simp⟩
  · obtain ⟨b, hb, hbu⟩ := h2
    have hbmem : b ∈ store.filter (fun x => x.url == some url) :=
      List.mem_filter.mpr ⟨hb, by simp [hbu]⟩
    cases hf : store.filter (fun x => x.url == some url) with
    | nil => rw [hf] at hbmem; cases hbmem
    | cons e rest =>
      have hemem : e ∈ store.filter (fun x => x.url == some url) := by
        rw [hf]; exact List.mem_cons_self e rest
      obtain ⟨hes, heu'⟩ := List.mem_filter.mp hemem
      have heu : e.url = some url := by simpa using heu'
      have hstep : BookmarksJs.createBookmarkInFolder store title url newId
          = (store.map (fun b => if b.id = e.id then { b with title := title } else b),
             e, false) := by
        simp [BookmarksJs.createBookmarkInFolder, hf]
      rw [hstep]
      refine ⟨rfl, List.length_map _ _, heu, ?_⟩
      refine ⟨{ e with title := title }, ?_, rfl, rfl⟩
      exact List.mem_map.mpr ⟨e, hes, by simp⟩

/-- Witness for C10 at a concrete store containing the URL. -/
theorem c10_no_duplicate_bookmarks_witness :
    ((Api.createBookmark c10Children newTitleStr mlUrlStr id9Str).2.2 = false
      ∧ (Api.createBookmark c10Children newTitleStr mlUrlStr id9Str).1.length = c10Children.length
      ∧ (Api.createBookmark c10Children newTitleStr mlUrlStr id9Str).2.1.title = newTitleStr
      ∧ (Api.createBookmark c10Children newTitleStr mlUrlStr id9Str).2.1.url = some mlUrlStr
      ∧ (Api.createBookmark c10Children newTitleStr mlUrlStr id9Str).2.1
          ∈ (Api.createBookmark c10Children newTitleStr mlUrlStr id9Str).1)
    ∧ ((BookmarksJs.createBookmarkInFolder c10Store newTitleStr mlUrlStr id9Str).2.2 = false
      ∧ (BookmarksJs.createBookmarkInFolder c10Store newTitleStr mlUrlStr id9Str).1.length
          = c10Store.length
      ∧ (BookmarksJs.createBookmarkInFolder c10Store newTitleStr mlUrlStr id9Str).2.1.url
          = some mlUrlStr
      ∧ ∃ n ∈ (BookmarksJs.createBookmarkInFolder c10Store newTitleStr mlUrlStr id9Str).1,
          n.id = (BookmarksJs.createBookmarkInFolder c10Store newTitleStr mlUrlStr id9Str).2.1.id
          ∧ n.title = newTitleStr) :=
  c10_no_duplicate_bookmarks c10Children c10Store newTitleStr mlUrlStr id9Str
    ⟨existingBookmarkNode, by decide, by decide⟩
    ⟨existingBookmarkNode, by decide, by decide⟩

/-- Claim C8: the cached folder-structure read never throws; when the
    underlying fetch fails it answers with the last cached list even if
    expired, and with the empty list when no usable cached value exists
    (the model is total by construction, mirroring the source's `try`/`catch`
    wrappers; the returned value is exactly the cached list or `[]`). -/
theorem c8_fetch_error_falls_back (force : Bool) (st : Api.CacheState) (env : Api.FetchEnv)
    (msg : String) (hf : env.fetchResult = Except.error msg) (hr : env.cacheReadFails = false) :
    (Api.getBookmarkFolderStructure force st env).output = st.cachedData.getD [] := by
  cases hcd : st.cachedData with
  | none =>
    cases force <;>
      simp [Api.getBookmarkFolderStructure, Api.getCachedFolderStructure, hf, hr, hcd]
  | some d =>
    cases hce : st.cachedExpiry with
    | none =>
      cases d <;> cases force <;>
        simp [Api.getBookmarkFolderStructure, Api.getCachedFolderStructure, hf, hr, hcd, hce]
    | some ev =>
      by_cases hnow : ev < env.now
      · cases d <;> cases force <;>
          simp [Api.getBookmarkFolderStructure, Api.getCachedFolderStructure,
            hf, hr, hcd, hce, hnow]
      · cases d <;> cases force <;>
          simp [Api.getBookmarkFolderStructure, Api.getCachedFolderStructure,
            hf, hr, hcd, hce, hnow]

/-- Witness for C8: expired cache plus failing fetch still returns the stale
    cached list. -/
theorem c8_fetch_error_falls_back_witness :
    (Api.getBookmarkFolderStructure false c8CacheState c8Env).output
      = c8CacheState.cachedData.getD [] :=
  c8_fetch_error_falls_back false c8CacheState c8Env netErrMsg rfl rfl

/-- Amended claim C4: for `getBookmarkFolderStructure` (src/utils/api.js), a
    cache entry that is still fresh answers two successive unforced reads
    with the identical cached list, no fetch, and an unchanged cache state. -/
theorem c4_amended_cached_reads_idempotent (st : Api.CacheState) (env : Api.FetchEnv)
    (d : List String) (e : Nat) (hd : st.cachedData = some d) (he : st.cachedExpiry = some e)
    (hfresh : env.now ≤ e) (hr : env.cacheReadFails = false) :
    Api.getBookmarkFolderStructure false st env
        = { output := d, state := st, fetched := false }
    ∧ Api.getBookmarkFolderStructure false
        (Api.getBookmarkFolderStructure false st env).state env
        = { output := d, state := st, fetched := false } := by
  have hnot : ¬ env.now > e := not_lt_of_ge hfresh
  have hone : Api.getBookmarkFolderStructure false st env
      = { output := d, state := st, fetched := false } := by
    simp [Api.getBookmarkFolderStructure, Api.getCachedFolderStructure, hd, he, hr, hnot]
  exact ⟨hone, by rw [hone]; exact hone⟩

/-- Witness for C4 (amended) at a concrete fresh cache. -/
theorem c4_amended_cached_reads_idempotent_witness :
    Api.getBookmarkFolderStructure false c4CacheState c4Env
        = { output := [techStr], state := c4CacheState, fetched := false }
    ∧ Api.getBookmarkFolderStructure false
        (Api.getBookmarkFolderStructure false c4CacheState c4Env).state c4Env
        = { output := [techStr], state := c4CacheState, fetched := false } :=
  c4_amended_cached_reads_idempotent c4CacheState c4Env [techStr] 1000 rfl rfl
    (by decide) rfl

/-- Counterexample to C4 as stated: `getFolderStructure` of src/bookmarks.js
    clears its module cache on entry, so even with a cache populated 0 ms ago
    both the first and the second call fetch the bookmark tree again
    (`fetched = true`), contradicting "the second call performs no fetch". -/
theorem c4_counterexample_always_refetches :
    (BookmarksJs.getFolderStructure freshLibState sampleLibEnv).2.2 = true
    ∧ (BookmarksJs.getFolderStructure
        (BookmarksJs.getFolderStructure freshLibState sampleLibEnv).2.1 sampleLibEnv).2.2 = true
    ∧ (BookmarksJs.getFolderStructure freshLibState sampleLibEnv).1 = [techStr] :=
  ⟨rfl, rfl, rfl⟩

/-- Counterexample to C1 as stated: the backend response `[]` parses and
    validates as an empty array, and `parseResponse` returns the empty list
    rather than a sentinel — a classification call can return zero
    suggestions. -/
theorem c1_counterexample_empty_array : AiJs.parseResponseAI emptyArrayResponse = [] := rfl

/-- Amended claim C1: `parseResponse` returns at most 5 suggestions, and any
    failure of the `try` block (no array found, JSON error, non-array,
    `validateAIResponse` rejection) yields exactly the single sentinel
    suggestion; a validated empty array, however, yields the empty list. -/
theorem c1_amended_parse_bounds (response : String) :
    (AiJs.parseResponseAI response).length ≤ 5
    ∧ (AiJs.parseResponseCoreAI response = none
        → AiJs.parseResponseAI response = [AiJs.sentinelAI]) := by
  cases h : AiJs.parseResponseCoreAI response with
  | none =>
    exact ⟨by simp [AiJs.parseResponseAI, h], fun _ => by simp [AiJs.parseResponseAI, h]⟩
  | some l =>
    have hlen : l.length ≤ 5 := by
      unfold AiJs.parseResponseCoreAI at h
      repeat' split at h
      all_goals cases h
      all_goals exact List.length_take_le 5 _
    refine ⟨?_, fun hc => Option.noConfusion hc⟩
    have hres : AiJs.parseResponseAI response = l := by simp [AiJs.parseResponseAI, h]
    rw [hres]; exact hlen

/-- Witness for C1 (amended): a response with no JSON array yields exactly
    the sentinel suggestion. -/
theorem c1_amended_parse_bounds_witness :
    (AiJs.parseResponseAI noJsonResponse).length ≤ 5
    ∧ AiJs.parseResponseAI noJsonResponse = [AiJs.sentinelAI] :=
  ⟨(c1_amended_parse_bounds noJsonResponse).1,
   (c1_amended_parse_bounds noJsonResponse).2 rfl⟩

/-- Counterexample to C3 as stated: the legacy `sanitizeFolderPath`
    (src/unnamed/part_001) pads the single surviving segment `Tech` with two
    `General` fillers instead of returning it unchanged. -/
theorem c3_counterexample_padding : Part001.sanitizeFolderPath techStr = techPaddedStr := rfl

/-- Amended claim C3: `SecuritySanitizer.sanitizeFolderPath` (part_005) never
    pads — at most 3 segments survive, when at least one survives the output
    is exactly their join, and the sentinel appears only on an empty
    survivor list; the legacy part_001 `sanitizeFolderPath`, by contrast,
    pads to 3 levels with `General`. -/
theorem c3_amended_no_padding (path : String) :
    (SecuritySanitizer.surviveSegments path).length ≤ 3
    ∧ (SecuritySanitizer.surviveSegments path = []
        → SecuritySanitizer.sanitizeFolderPath path = uncategorizedStr)
    ∧ (SecuritySanitizer.surviveSegments path ≠ []
        → SecuritySanitizer.sanitizeFolderPath path
            = SecuritySanitizer.joinSlash (SecuritySanitizer.surviveSegments path)) := by
  refine ⟨?_, ?_, ?_⟩
  · simp [SecuritySanitizer.surviveSegments, List.length_take]
  · intro hempty
    simp [SecuritySanitizer.sanitizeFolderPath, hempty, SecuritySanitizer.joinSlash]
  · intro hne
    cases hseg : SecuritySanitizer.surviveSegments path with
    | nil => exact absurd hseg hne
    | cons s rest =>
      have hmem : s ∈ SecuritySanitizer.surviveSegments path := by
        rw [hseg]; exact List.mem_cons_self s rest
      have hs1 : 1 ≤ s.length := by
        unfold SecuritySanitizer.surviveSegments at hmem
        rcases List.mem_map.mp hmem with ⟨l, hl, rfl⟩
        have hl' := List.mem_of_mem_take hl
        have hk : SecuritySanitizer.keepSeg l = true := (List.mem_filter.mp hl').2
        have hne' : l ≠ [] := by
          cases l with
          | nil => simp [SecuritySanitizer.keepSeg] at hk
          | cons c cs => simp
        have hpos : 0 < l.length := List.length_pos.mpr hne'
        simpa [String.length] using hpos
      have hjoinlen : 1 ≤ (SecuritySanitizer.joinSlash (s :: rest)).length := by
        refine le_trans hs1 ?_
        cases rest with
        | nil => simp [SecuritySanitizer.joinSlash]
        | cons t ts =>
          simp only [SecuritySanitizer.joinSlash, String.length_append]
          omega
      have hjoin : SecuritySanitizer.joinSlash (s :: rest) ≠ "" := by
        intro hcontra
        rw [hcontra] at hjoinlen
        simp [String.length] at hjoinlen
      simp [SecuritySanitizer.sanitizeFolderPath, hseg, hjoin]

/-- Witness for C3 (amended): two surviving segments pass through unpadded. -/
theorem c3_amended_no_padding_witness :
    SecuritySanitizer.sanitizeFolderPath techAIStr
      = SecuritySanitizer.joinSlash (SecuritySanitizer.surviveSegments techAIStr) :=
  (c3_amended_no_padding techAIStr).2.2 (by decide)

/-- Counterexample to C5 as stated: in src/ai.js a single invalid item makes
    `validateAIResponse` reject the whole batch — the mixed response is
    replaced by the sentinel although its first item alone is valid and is
    kept when sent on its own. -/
theorem c5_counterexample_batch_rejected :
    AiJs.parseResponseAI mixedResponse = [AiJs.sentinelAI]
    ∧ AiJs.parseResponseAI soloValidResponse = [{ folderPath := techStr }] :=
  ⟨rfl, rfl⟩

/-- The legacy clamp `Math.min(1, Math.max(0, Number(x)))` always yields
    `NaN` or a rational in [0, 1]. -/
theorem jsClamp_cases (x : JSNum) :
    jsMin1 (jsMax0 x) = JSNum.nan
    ∨ ∃ c, jsMin1 (jsMax0 x) = JSNum.num c ∧ 0 ≤ c ∧ c ≤ 1 := by
  cases x with
  | num q =>
    exact Or.inr ⟨min 1 (max 0 q), rfl,
      le_min (by norm_num) (le_max_left 0 q), min_le_left 1 (max 0 q)⟩
  | nan => exact Or.inl rfl
  | inf => exact Or.inr ⟨1, rfl, by norm_num, by norm_num⟩
  | ninf =>
    refine Or.inr ⟨min 1 0, rfl, ?_, min_le_left 1 0⟩
    rw [min_eq_right (by norm_num : (0 : ℚ) ≤ 1)]

/-- One element on the `TypeError` path of the map callback poisons the
    whole map. -/
theorem mapItems001_none_of_badShape (l : List JVal) (v : JVal) (hv : v ∈ l)
    (hbad : Part001.goodShape001 v = false) : Part001.mapItems001 l = none := by
  induction l with
  | nil => cases hv
  | cons u us ih =>
    rcases List.mem_cons.mp hv with rfl | hv'
    · unfold Part001.mapItems001
      split
      · rename_i fp cv h₁ h₂
        simp [Part001.goodShape001, h₁, h₂] at hbad
      · rfl
    · unfold Part001.mapItems001
      split
      · simp [ih hv']
      · rfl

/-- `mapItems001` succeeds on lists of success-path items, preserving length;
    every produced confidence is `NaN` or lies in [0, 1]. -/
theorem mapItems001_total (l : List JVal)
    (h : ∀ v ∈ l, Part001.goodShape001 v = true) :
    ∃ r, Part001.mapItems001 l = some r ∧ r.length = l.length
      ∧ ∀ s ∈ r, s.confidence = JSNum.nan
          ∨ ∃ c, s.confidence = JSNum.num c ∧ 0 ≤ c ∧ c ≤ 1 := by
  induction l with
  | nil => exact ⟨[], rfl, rfl, by simp⟩
  | cons u us ih =>
    have hu := h u (List.mem_cons_self u us)
    obtain ⟨r, hr, hlen, hb⟩ := ih (fun x hx => h x (List.mem_cons_of_mem u hx))
    cases hfp : jsProp u folderPathKey with
    | none => simp [Part001.goodShape001, hfp] at hu
    | some w =>
      cases hcf : jsProp u confidenceKey with
      | none => simp [Part001.goodShape001, hfp, hcf] at hu
      | some cv =>
        cases w with
        | jstr fp =>
          refine ⟨{ folderPath := Part001.sanitizeFolderPath fp
                    confidence := jsMin1 (jsMax0 (toNumber cv)) : Part001.Suggestion1 } :: r,
            ?_, by simp [hlen], ?_⟩
          · simp [Part001.mapItems001, hfp, hcf, hr]
          · intro s hs
            rcases List.mem_cons.mp hs with rfl | hs'
            · exact jsClamp_cases (toNumber cv)
            · exact hb s hs'
        | jnull => simp [Part001.goodShape001, hfp, hcf] at hu
        | jbool b => simp [Part001.goodShape001, hfp, hcf] at hu
        | jnum q => simp [Part001.goodShape001, hfp, hcf] at hu
        | jarr xs => simp [Part001.goodShape001, hfp, hcf] at hu
        | jobj gs => simp [Part001.goodShape001, hfp, hcf] at hu

/-- Amended claim C5: in the legacy `parseResponse` (part_001), an invalid
    item among valid ones does not always leave the batch intact — a `null`
    element, or a kept item whose truthy `folderPath` is not a string,
    throws and replaces the whole batch by the sentinel; an item whose
    `folderPath` or `confidence` is merely not truthy is silently dropped
    (in particular one with a valid `folderPath` but no `confidence` field
    is dropped, never defaulted to 0.5), the remaining items are kept in
    order with their confidence coerced by `Number()` and clamped so that
    every kept confidence is `NaN` or lies in [0, 1].  (In src/ai.js one
    invalid item always rejects the whole batch, see the counterexample.) -/
theorem c5_amended_legacy_validation :
    (∀ items : List JVal, JVal.jnull ∈ items → Part001.validateItems001 items = none)
    ∧ (∀ items : List JVal, ∀ v ∈ items, Part001.keep001 v = true
        → Part001.goodShape001 v = false → Part001.validateItems001 items = none)
    ∧ (∀ v : JVal, jsProp v confidenceKey = none → Part001.keep001 v = false)
    ∧ (∀ items : List JVal,
        (∀ v ∈ items, isJNull v = false
          ∧ (Part001.keep001 v = true → Part001.goodShape001 v = true))
        → ∃ r, Part001.validateItems001 items = some r
            ∧ r.length = (items.filter Part001.keep001).length
            ∧ ∀ s ∈ r, s.confidence = JSNum.nan
                ∨ ∃ c, s.confidence = JSNum.num c ∧ 0 ≤ c ∧ c ≤ 1) := by
  refine ⟨?_, ?_, ?_, ?_⟩
  · intro items hmem
    have hany : items.any isJNull = true := by
      rw [List.any_eq_true]
      exact ⟨JVal.jnull, hmem, rfl⟩
    simp [Part001.validateItems001, hany]
  · intro items v hv hkeep hbad
    by_cases hnull : items.any isJNull = true
    · simp [Part001.validateItems001, hnull]
    · have hmap := mapItems001_none_of_badShape (items.filter Part001.keep001) v
        (List.mem_filter.mpr ⟨hv, hkeep⟩) hbad
      simp [Part001.validateItems001, hnull, hmap]
  · intro v hnone
    simp [Part001.keep001, hnone, truthyOpt]
  · intro items hyp
    have hnull : items.any isJNull = false := by
      rw [List.any_eq_false]
      intro v hv
      simp [(hyp v hv).1]
    obtain ⟨r, hr, hlen, hb⟩ := mapItems001_total (items.filter Part001.keep001)
      (fun v hv => (hyp v (List.mem_filter.mp hv).1).2 (List.mem_filter.mp hv).2)
    exact ⟨r, by simp [Part001.validateItems001, hnull, hr], hlen, hb⟩

/-- Witness for C5 (amended): a `null` element and a numeric folderPath each
    sentinel their batch; a confidence-less item is not kept; the mixed
    batch of two kept items (numeric and numeric-string confidence) and one
    dropped item validates to exactly the kept ones. -/
theorem c5_amended_legacy_validation_witness :
    Part001.validateItems001 c5NullBatch = none
    ∧ Part001.validateItems001 c5BadFpBatch = none
    ∧ Part001.keep001 noConfItem = false
    ∧ ∃ r, Part001.validateItems001 c5Items = some r
        ∧ r.length = (c5Items.filter Part001.keep001).length
        ∧ ∀ s ∈ r, s.confidence = JSNum.nan
            ∨ ∃ c, s.confidence = JSNum.num c ∧ 0 ≤ c ∧ c ≤ 1 :=
  ⟨c5_amended_legacy_validation.1 c5NullBatch (List.mem_cons_self _ _),
   c5_amended_legacy_validation.2.1 c5BadFpBatch numFpItem (List.mem_cons_self _ _)
     (by decide) (by decide),
   c5_amended_legacy_validation.2.2.1 noConfItem rfl,
   c5_amended_legacy_validation.2.2.2 c5Items (by decide)⟩

/-- Counterexample to C6 as stated: with an empty prefix and a non-empty
    suffix the trimmed response starts with `[`, so `extractJsonArray`
    parses the whole string and throws, even though the substring between
    the first `[` and the last `]` is a valid JSON array. -/
theorem c6_counterexample_suffix_throws :
    (AIProvider.extractJsonArray arraySuffixResponse).isOk = false
    ∧ bracketSlice (jsTrim arraySuffixResponse) = some arraySliceStr
    ∧ jsonParse arraySliceStr = some (JVal.jarr [JVal.jstr aLit]) :=
  ⟨rfl, rfl, rfl⟩

/-- Amended claim C6: when the trimmed response does not itself start with
    `[`, `extractJsonArray` parses the substring between the first `[` and
    the last `]` and returns the array it denotes. -/
theorem c6_amended_bracket_extraction (raw sub : String) (xs : List JVal)
    (h1 : startsWithChar '[' (jsTrim raw) = false)
    (h2 : bracketSlice (jsTrim raw) = some sub)
    (h3 : jsonParse sub = some (JVal.jarr xs)) :
    AIProvider.extractJsonArray raw = Except.ok xs := by
  simp [AIProvider.extractJsonArray, h1, h2, h3]

/-- Witness for C6 (amended): prose on both sides of the array. -/
theorem c6_amended_bracket_extraction_witness :
    AIProvider.extractJsonArray proseWrappedResponse = Except.ok [JVal.jstr aLit] :=
  c6_amended_bracket_extraction proseWrappedResponse arraySliceStr [JVal.jstr aLit] rfl rfl rfl

/-- Counterexample to C7 as stated: with 3 depth-1 folders and ceiling 2,
    `prioritizeFolders` keeps all root folders and returns 3 paths — more
    than `maxFolders`. -/
theorem c7_counterexample_exceeds_ceiling :
    TokenManager.prioritizeFolders abcRoots 2 = abcRoots
    ∧ ¬ (TokenManager.prioritizeFolders abcRoots 2).length ≤ 2 :=
  ⟨by decide, by decide⟩

/-- Amended claim C7: above the ceiling, the output is all depth-1 folders
    (in input order) followed by the first `maxFolders − #roots` deeper
    folders in ascending-depth-then-lexicographic order; its length is
    bounded by `max maxFolders #roots` (not by `maxFolders` alone, since all
    root folders are kept unconditionally), and every depth-1 folder is
    included and precedes every deeper one. -/
theorem c7_amended_prioritize (folders : List String) (maxFolders : Nat)
    (h : maxFolders < folders.length) :
    ∃ sortedSubs : List String,
      sortedSubs.Perm (folders.filter (fun f => TokenManager.hasSlash f))
      ∧ List.Sorted TokenManager.subOrd sortedSubs
      ∧ TokenManager.prioritizeFolders folders maxFolders
          = folders.filter (fun f => !TokenManager.hasSlash f)
            ++ sortedSubs.take
                (maxFolders - (folders.filter (fun f => !TokenManager.hasSlash f)).length)
      ∧ (TokenManager.prioritizeFolders folders maxFolders).length
          ≤ max maxFolders (folders.filter (fun f => !TokenManager.hasSlash f)).length
      ∧ (∀ f ∈ folders, TokenManager.hasSlash f = false
          → f ∈ TokenManager.prioritizeFolders folders maxFolders) := by
  have hne : folders.isEmpty = false := by
    cases folders with
    | nil => exact absurd h (Nat.not_lt_zero _)
    | cons x xs => rfl
  have hgt : ¬ folders.length ≤ maxFolders := not_le.mpr h
  refine ⟨List.insertionSort TokenManager.subOrd
      (folders.filter (fun f => TokenManager.hasSlash f)),
    List.perm_insertionSort _ _, List.sorted_insertionSort _ _, ?_, ?_, ?_⟩ <;>
    by_cases hroots : (folders.filter (fun f => !TokenManager.hasSlash f)).length < maxFolders
  · simp [TokenManager.prioritizeFolders, hne, hgt, hroots]
  · have hzero : maxFolders - (folders.filter (fun f => !TokenManager.hasSlash f)).length = 0 :=
      Nat.sub_eq_zero_of_le (le_of_not_lt hroots)
    rw [hzero, List.take_zero, List.append_nil]
    simp [TokenManager.prioritizeFolders, hne, hgt, hroots]
  · have heq : TokenManager.prioritizeFolders folders maxFolders
        = folders.filter (fun f => !TokenManager.hasSlash f)
          ++ (List.insertionSort TokenManager.subOrd
              (folders.filter (fun f => TokenManager.hasSlash f))).take
              (maxFolders - (folders.filter (fun f => !TokenManager.hasSlash f)).length) := by
      simp [TokenManager.prioritizeFolders, hne, hgt, hroots]
    rw [heq, List.length_append]
    have h₁ := List.length_take_le
      (maxFolders - (folders.filter (fun f => !TokenManager.hasSlash f)).length)
      (List.insertionSort TokenManager.subOrd
        (folders.filter (fun f => TokenManager.hasSlash f)))
    omega
  · have heq : TokenManager.prioritizeFolders folders maxFolders
        = folders.filter (fun f => !TokenManager.hasSlash f) := by
      simp [TokenManager.prioritizeFolders, hne, hgt, hroots]
    rw [heq]
    exact le_trans (le_refl _) (le_max_right _ _)
  · intro f hf hslash
    have hf' : f ∈ folders.filter (fun x => !TokenManager.hasSlash x) :=
      List.mem_filter.mpr ⟨hf, by simp [hslash]⟩
    have heq : TokenManager.prioritizeFolders folders maxFolders
        = folders.filter (fun f => !TokenManager.hasSlash f)
          ++ (List.insertionSort TokenManager.subOrd
              (folders.filter (fun f => TokenManager.hasSlash f))).take
              (maxFolders - (folders.filter (fun f => !TokenManager.hasSlash f)).length) := by
      simp [TokenManager.prioritizeFolders, hne, hgt, hroots]
    rw [heq]
    exact List.mem_append_left _ hf'
  · intro f hf hslash
    have hf' : f ∈ folders.filter (fun x => !TokenManager.hasSlash x) :=
      List.mem_filter.mpr ⟨hf, by simp [hslash]⟩
    have heq : TokenManager.prioritizeFolders folders maxFolders
        = folders.filter (fun f => !TokenManager.hasSlash f) := by
      simp [TokenManager.prioritizeFolders, hne, hgt, hroots]
    rw [heq]
    exact hf'

/-- Witness for C7 (amended) at 4 folders (2 roots, 2 subfolders), ceiling 3. -/
theorem c7_amended_prioritize_witness :
    ∃ sortedSubs : List String,
      sortedSubs.Perm (fourFolders.filter (fun f => TokenManager.hasSlash f))
      ∧ List.Sorted TokenManager.subOrd sortedSubs
      ∧ TokenManager.prioritizeFolders fourFolders 3
          = fourFolders.filter (fun f => !TokenManager.hasSlash f)
            ++ sortedSubs.take
                (3 - (fourFolders.filter (fun f => !TokenManager.hasSlash f)).length)
      ∧ (TokenManager.prioritizeFolders fourFolders 3).length
          ≤ max 3 (fourFolders.filter (fun f => !TokenManager.hasSlash f)).length
      ∧ (∀ f ∈ fourFolders, TokenManager.hasSlash f = false
          → f ∈ TokenManager.prioritizeFolders fourFolders 3) :=
  c7_amended_prioritize fourFolders 3 (by decide)

/-- The token estimate is monotone in the text length. -/
theorem estimateTokenCount_le_of_length_le {a b : String} (h : a.length ≤ b.length) :
    TokenManager.estimateTokenCount a ≤ TokenManager.estimateTokenCount b :=
  Nat.div_le_div_right (by omega)

/-- Claim C2: whenever some non-empty subset of the folders fits the budget
    under `estimateTokenCount`, the folder set `optimizeContext` returns
    produces a prompt whose estimated token count is within the budget. -/
theorem c2_optimize_within_budget (folders : List String) (basePrompt : String)
    (maxContextTokens : Nat)
    (h : ∃ S : List String, S ≠ [] ∧ (∀ f ∈ S, f ∈ folders)
          ∧ TokenManager.estimateTokenCount (basePrompt ++ TokenManager.buildContextSection S)
              ≤ maxContextTokens) :
    TokenManager.estimateTokenCount
        (basePrompt ++ TokenManager.buildContextSection
          (TokenManager.optimizeContext folders basePrompt maxContextTokens).folders)
      ≤ maxContextTokens := by
  obtain ⟨S, hSne, hSsub, hSfit⟩ := h
  have hbase : TokenManager.estimateTokenCount basePrompt ≤ maxContextTokens := by
    refine le_trans (estimateTokenCount_le_of_length_le ?_) hSfit
    rw [String.length_append]
    omega
  have hemptylen : ("" : String).length = 0 := rfl
  have hempty_est : TokenManager.estimateTokenCount
      (basePrompt ++ TokenManager.buildContextSection []) ≤ maxContextTokens := by
    refine le_trans (estimateTokenCount_le_of_length_le ?_) hbase
    rw [show TokenManager.buildContextSection [] = "" from rfl, String.length_append]
    omega
  by_cases hempty : folders.isEmpty
  · have heq : (TokenManager.optimizeContext folders basePrompt maxContextTokens).folders = [] := by
      simp [TokenManager.optimizeContext, hempty]
    rw [heq]
    exact hempty_est
  · by_cases hfull : TokenManager.estimateTokenCount
        (basePrompt ++ TokenManager.buildContextSection folders) ≤ maxContextTokens
    · have heq : (TokenManager.optimizeContext folders basePrompt maxContextTokens).folders
          = folders := by
        simp [TokenManager.optimizeContext, hempty, hfull]
      rw [heq]
      exact hfull
    · cases hfind : TokenManager.maxFolderLimits.find?
          (fun limit =>
            decide (TokenManager.estimateTokenCount
              (basePrompt ++ TokenManager.buildContextSection
                (TokenManager.prioritizeFolders folders limit)) ≤ maxContextTokens)) with
      | some limit =>
        have hp := List.find?_some hfind
        have heq : (TokenManager.optimizeContext folders basePrompt maxContextTokens).folders
            = TokenManager.prioritizeFolders folders limit := by
          simp [TokenManager.optimizeContext, hempty, hfull, hfind]
        rw [heq]
        exact of_decide_eq_true hp
      | none =>
        have heq : (TokenManager.optimizeContext folders basePrompt maxContextTokens).folders
            = [] := by
          simp [TokenManager.optimizeContext, hempty, hfull, hfind]
        rw [heq]
        exact hempty_est

/-- Witness for C2 at one folder, an empty base prompt and a budget of 1000
    tokens. -/
theorem c2_optimize_within_budget_witness :
    TokenManager.estimateTokenCount
        (emptyStr ++ TokenManager.buildContextSection
          (TokenManager.optimizeContext singleFolder emptyStr 1000).folders)
      ≤ 1000 :=
  c2_optimize_within_budget singleFolder emptyStr 1000
    ⟨singleFolder, by decide, by decide, by decide⟩

end Smartmark
